import Mathlib

/-!
Shallow embedding of the Text2SQL-Agent repository (agent.py, src/schema.py,
src/retriever.py) and proofs about its retry loop, tool registry, schema
DataFrame construction and retriever document construction.

External collaborators (the language model, the SQL database and the vector
retriever) are modelled as explicit function parameters (oracles); the code
of this repository that consumes them is translated faithfully.
-/

set_option maxRecDepth 100000

namespace TextToSQL

/-! ## Python-style primitive string operations used by agent.py -/

/-- The ASCII portion of Python regex class backslash-s and of str.strip,
which is the set relevant to the strings manipulated by agent.py. -/
def pySpace (c : Char) : Bool :=
  c = ' ' || c = '\t' || c = '\n' || c = '\r' || c = '\x0b' || c = '\x0c'

/-- Python str.strip: remove leading and trailing whitespace. -/
def pyStrip (l : List Char) : List Char :=
  ((l.dropWhile pySpace).reverse.dropWhile pySpace).reverse

/-- First index at or after the start of the suffix at which the pattern
occurs; the second argument is the remaining suffix, the third the absolute
index of its head. -/
def findFromAux (pat : List Char) : List Char → Nat → Option Nat
  | [], i => if pat.isPrefixOf [] then some i else none
  | c :: rest, i =>
    if pat.isPrefixOf (c :: rest) then some i else findFromAux pat rest (i + 1)

/-- First index at or after `start` at which `pat` occurs in `l`. -/
def findFrom (pat l : List Char) (start : Nat) : Option Nat :=
  findFromAux pat (l.drop start) start

/-- Python str.replace with the replacement fixed by a fuel-bounded scan
(left to right, non-overlapping, skipping the pattern length on a match).
The call sites of agent.py use nonempty patterns, for which this agrees
with Python when the fuel is at least the length of the scanned list. -/
def replaceAllGo (pat rep : List Char) : Nat → List Char → List Char
  | _, [] => []
  | 0, s => s
  | fuel + 1, c :: rest =>
    if pat.isPrefixOf (c :: rest) then
      rep ++ replaceAllGo pat rep fuel ((c :: rest).drop pat.length)
    else
      c :: replaceAllGo pat rep fuel rest

/-- Python str.replace(pat, rep): replace every occurrence, left to right. -/
def replaceAll (pat rep s : List Char) : List Char :=
  replaceAllGo pat rep s.length s

/-! ## The statement-extraction step of safe_sql_query (agent.py lines 133-136) -/

/-- The marker before the generated statement in the regex of agent.py. -/
def sqlQueryMarker : List Char := "SQLQuery:".data

/-- The lookahead marker ending the captured region in the regex of agent.py. -/
def sqlResultMarker : List Char := "\nSQLResult:".data

/-- Length of the leading run of whitespace, consumed greedily by the
backslash-s-star part of the regex of agent.py. -/
def wsRunLen (l : List Char) : Nat := (l.takeWhile pySpace).length

/-- The backtracking search of the lazy captured group: the whitespace run
after the query marker is consumed greedily first (`w` maximal), and on
failure the engine retries with one fewer whitespace character, down to
zero.  For each `w` the lazy group ends at the first occurrence of the
result marker at or after `start + w`. -/
def tryW (l : List Char) (start : Nat) : Nat → Option (List Char)
  | 0 =>
    match findFrom sqlResultMarker l start with
    | some r => some ((l.drop start).take (r - start))
    | none => none
  | w + 1 =>
    match findFrom sqlResultMarker l (start + (w + 1)) with
    | some r => some ((l.drop (start + (w + 1))).take (r - (start + (w + 1))))
    | none => tryW l start w

/-- re.search(r"SQLQuery:\s*(.*?)(?=\nSQLResult:)", sql_code, re.DOTALL):
the captured group, if the pattern matches. -/
def matchGroup1 (l : List Char) : Option (List Char) :=
  match findFrom sqlQueryMarker l 0 with
  | none => none
  | some q => tryW l (q + sqlQueryMarker.length) (wsRunLen (l.drop (q + sqlQueryMarker.length)))

/-- The backtick character, written by code point. -/
def backtick : Char := Char.ofNat 96

/-- The code-fence opener with language tag removed first by agent.py. -/
def codeFenceSql : List Char := "```sql".data

/-- The plain code fence removed second by agent.py. -/
def codeFence : List Char := "```".data

/-- sql_code.strip().replace("```sql", "").replace("```", "").strip()
from agent.py line 136. -/
def cleanSQLText (l : List Char) : List Char :=
  pyStrip (replaceAll codeFence [] (replaceAll codeFenceSql [] (pyStrip l)))

/-- Lines 133-136 of agent.py: take the captured group when the regex
matches, the whole raw text otherwise, then strip fences and whitespace. -/
def extractSQLCore (l : List Char) : List Char :=
  cleanSQLText (match matchGroup1 l with | some g => g | none => l)

/-- The extraction step of safe_sql_query on the raw model output. -/
def extractSQL (raw : String) : String := String.mk (extractSQLCore raw.data)

/-! ## The retry-and-correct loop safe_sql_query (agent.py lines 117-157) -/

/-- An apostrophe, written by code point to keep source scanning simple. -/
def squote : String := "\x27"

/-- The chain_input dictionary fed to sql_generation_chain.invoke: only the
input field is mutated between attempts. -/
structure ChainInput where
  input : String
  table_info : String
  dialect : String
deriving Repr, DecidableEq

/-- The database collaborator: get_table_info, dialect, and run.  run is
indexed by the attempt number so that distinct calls may have distinct
outcomes; a raised exception is an `Except.error` carrying str(e).  The
two extra text fields are the outputs of the ListSQLDatabaseTool and
InfoSQLDatabaseTool wrappers used by the other tools of agent.py. -/
structure SQLDatabaseModel where
  get_table_info : String
  dialect : String
  run : Nat → String → Except String String
  listTablesOutput : String
  tableInfoOutput : String → String

deriving instance DecidableEq for Except

/-- One iteration of the retry loop: the instruction used, the raw model
output, the extracted statement and the execution outcome (one generation
call and one execution call per recorded attempt). -/
structure SQLAttempt where
  instruction : String
  rawOutput : String
  sqlCode : String
  execResult : Except String String
deriving Repr, DecidableEq

/-- f-string of the success return (agent.py line 142). -/
def successMessage (result : String) : String :=
  "Query executed successfully. Result: " ++ result

/-- f-string of the final-attempt failure return (agent.py line 148). -/
def failureMessage (maxRetries : Nat) (errorMessage : String) : String :=
  "Failed to execute SQL after " ++ toString maxRetries ++ " attempts. Last error: " ++ errorMessage

/-- The corrective instruction written into chain_input (agent.py lines 150-155). -/
def correctiveInstruction (question sqlCode errorMessage : String) : String :=
  "The previous attempt to answer the question " ++ squote ++ question ++ squote ++ " failed. " ++
  "The generated SQL was:\n" ++ sqlCode ++ "\n" ++
  "It produced the following database error:\n" ++ errorMessage ++ "\n" ++
  "Please analyze the error and the database schema to generate a corrected SQL query."

/-- The defensive fallback return after the loop (agent.py line 157). -/
def fallbackMessage : String :=
  "Failed to get a valid response from the database after multiple attempts."

/-- The for-loop of safe_sql_query over `range(max_retries)`, with the
attempts instrumented into a trace.  Each iteration makes exactly one
generation call (`gen i`) and exactly one execution call (`db.run i`). -/
def sqlAttemptLoop (gen : Nat → ChainInput → String) (db : SQLDatabaseModel)
    (question : String) (maxRetries : Nat) :
    List Nat → ChainInput → String × List SQLAttempt
  | [], _ => (fallbackMessage, [])
  | i :: rest, chainInput =>
    let raw := gen i chainInput
    let sqlCode := extractSQL raw
    match db.run i sqlCode with
    | .ok result =>
      (successMessage result, [⟨chainInput.input, raw, sqlCode, .ok result⟩])
    | .error e =>
      if i = maxRetries - 1 then
        (failureMessage maxRetries e, [⟨chainInput.input, raw, sqlCode, .error e⟩])
      else
        let next := sqlAttemptLoop gen db question maxRetries rest
          { chainInput with input := correctiveInstruction question sqlCode e }
        (next.1, ⟨chainInput.input, raw, sqlCode, .error e⟩ :: next.2)

/-- safe_sql_query (agent.py lines 117-157): returns the string handed back
to the agent together with the trace of attempts made. -/
def safe_sql_query (gen : Nat → ChainInput → String) (db : SQLDatabaseModel)
    (question : String) (maxRetries : Nat := 3) : String × List SQLAttempt :=
  sqlAttemptLoop gen db question maxRetries (List.range maxRetries)
    { input := question, table_info := db.get_table_info, dialect := db.dialect }

/-- The attempt record produced by one iteration of the loop body on the
given chain input. -/
def mkAttempt (gen : Nat → ChainInput → String) (db : SQLDatabaseModel)
    (i : Nat) (chainInput : ChainInput) : SQLAttempt :=
  { instruction := chainInput.input
    rawOutput := gen i chainInput
    sqlCode := extractSQL (gen i chainInput)
    execResult := db.run i (extractSQL (gen i chainInput)) }

/-! ## Tool registry (agent.py lines 25-199) -/

/-- A document returned by the retriever (langchain Document restricted to
the fields this repository reads and writes). -/
structure SchemaDocument where
  page_content : String
  metaTableName : String
deriving Repr, DecidableEq

/-- What a tool function hands back to the agent loop: the three
database-backed tools return text, while schema_lookup returns the raw
list of retriever documents. -/
inductive ToolOutput where
  | text (s : String)
  | docs (ds : List SchemaDocument)

/-- Whether a tool output is already a plain string at the tool boundary. -/
def ToolOutput.isText : ToolOutput → Bool
  | .text _ => true
  | .docs _ => false

/-- A registered langchain Tool: unique name, description for the planner,
and the wrapped function of one string argument. -/
structure Tool where
  name : String
  description : String
  func : String → ToolOutput

/-- build_list_table_tool: wraps ListSQLDatabaseTool, which ignores its
input and returns the table-name list as text. -/
def build_list_table_tool (db : SQLDatabaseModel) : Tool :=
  { name := "list_tables"
    description := "Use this tool to list all available table names in the database."
    func := fun _ => .text db.listTablesOutput }

/-- build_info_table_tool: wraps InfoSQLDatabaseTool.invoke on the given
table name, returning schema text. -/
def build_info_table_tool (db : SQLDatabaseModel) : Tool :=
  { name := "describe_table"
    description := "Use this tool to describe the schema of a specific table, including column names and data types."
    func := fun table => .text (db.tableInfoOutput table) }

/-- build_schema_tool: func is `lambda query: retriever.get_relevant_documents(query)`,
so the tool hands the document list itself back, not a string. -/
def build_schema_tool (retriever : String → List SchemaDocument) : Tool :=
  { name := "schema_lookup"
    description := "A tool to retrieve definitions of table or column names."
    func := fun query => .docs (retriever query) }

/-- build_sql_generation_tool: func is safe_sql_query, whose return value is
a string (max_retries defaults to 3). -/
def build_sql_generation_tool (gen : Nat → ChainInput → String) (db : SQLDatabaseModel)
    (maxRetries : Nat := 3) : Tool :=
  { name := "sql_query"
    description := "Use this tool to answer questions about user data, metrics, or reports from the database."
    func := fun question => .text (safe_sql_query gen db question maxRetries).1 }

/-- The tool list of build_agent (agent.py line 199), in registration order. -/
def build_agent_tools (gen : Nat → ChainInput → String) (db : SQLDatabaseModel)
    (retriever : String → List SchemaDocument) : List Tool :=
  [build_list_table_tool db, build_info_table_tool db,
   build_sql_generation_tool gen db 3, build_schema_tool retriever]

/-- The AgentExecutor configuration fixed by build_agent (agent.py lines
216-223): handle_parsing_errors=True and early_stopping_method="generate". -/
structure AgentExecutorModel where
  tools : List Tool
  handleParsingErrors : Bool
  earlyStoppingGenerate : Bool

/-- build_agent (agent.py lines 160-225): registers the four tools and
switches parse-error handling on. -/
def build_agent (gen : Nat → ChainInput → String) (db : SQLDatabaseModel)
    (retriever : String → List SchemaDocument) : AgentExecutorModel :=
  { tools := build_agent_tools gen db retriever
    handleParsingErrors := true
    earlyStoppingGenerate := true }

/-! ## Agent loop (plan-act-observe), modelled from the spec -/

/-- Modelled from the spec: the parse of one planner output — a tool call, a
final answer, or a parse failure (the executor that interprets planner text
lives in the langchain library, not in this repository). -/
inductive PlannerStep where
  | toolCall (toolName toolInput : String)
  | finalAnswer (answer : String)
  | parseFailure (raw : String)

/-- One scratchpad entry: the tool invoked, its input and the observation. -/
structure ScratchpadEntry where
  toolName : String
  toolInput : String
  observation : String
deriving Repr, DecidableEq

/-- Modelled from the spec: observations are text, so structured tool output
is rendered when it is appended to the scratchpad. -/
def serializeToolOutput : ToolOutput → String
  | .text s => s
  | .docs ds => String.intercalate "\n" (ds.map (fun d => d.page_content))

/-- Modelled from the spec: the corrective observation fed back when the
planner output cannot be parsed and handle_parsing_errors is on. -/
def parseFailureObservation : String := "please follow the expected output format"

/-- Modelled from the spec: the plan-act-observe loop of the agent executor
(langchain AgentExecutor is not part of this repository).  The planner is an
oracle from the scratchpad to its next step; the fuel is the iteration
budget; a parse failure either becomes a corrective observation (when
handle_parsing_errors is on, as build_agent sets it) or aborts the run. -/
def agentLoop (plan : List ScratchpadEntry → PlannerStep) (tools : List Tool)
    (handleParsingErrors : Bool) :
    Nat → List ScratchpadEntry → Except String (String × List ScratchpadEntry)
  | 0, pad => .ok ("Agent stopped due to iteration limit.", pad)
  | fuel + 1, pad =>
    match plan pad with
    | .finalAnswer a => .ok (a, pad)
    | .toolCall name input =>
      match tools.find? (fun t => t.name == name) with
      | some t =>
        agentLoop plan tools handleParsingErrors fuel
          (pad ++ [⟨name, input, serializeToolOutput (t.func input)⟩])
      | none =>
        agentLoop plan tools handleParsingErrors fuel
          (pad ++ [⟨name, input, name ++ " is not a valid tool, try another one."⟩])
    | .parseFailure raw =>
      if handleParsingErrors then
        agentLoop plan tools handleParsingErrors fuel
          (pad ++ [⟨"_Exception", raw, parseFailureObservation⟩])
      else
        .error raw

/-! ## src/schema.py: the schema DataFrame

A pandas DataFrame built from a list of uniform dicts is modelled as a list
of rows, each row an ordered key-value list (the dict insertion order of the
source).  The 4-tuples are (column name, Chinese column name, definition,
data type), exactly as in create_schema. -/

/-- The members entries of column_definitions. -/
def membersColumns : List (String × String × String × String) :=
  [("member_id", "會員編號", "Unique identifier for each member", "Integer"),
   ("member_name", "姓名", "Member\x27s full name", "String"),
   ("email", "電子郵件", "Member\x27s email address", "String"),
   ("join_date", "加入日期", "Date the member registered", "DateTime"),
   ("member_level", "會員等級", "Membership level (e.g., Silver, Gold, Platinum)", "String"),
   ("referrer_id", "推薦人", "ID of the member who referred this member", "Integer (nullable)"),
   ("gender", "性別", "Member\x27s gender (Male, Female, Unknown)", "String"),
   ("birth_year", "出生年份", "Year the member was born", "Integer"),
   ("country", "國家", "Country the member belongs to", "String"),
   ("is_active", "是否啟用", "Whether the member\x27s account is active", "Boolean")]

/-- The items entries of column_definitions. -/
def itemsColumns : List (String × String × String × String) :=
  [("item_id", "商品編號", "Unique identifier for each item", "Integer"),
   ("item_name", "商品名稱", "Name of the item", "String"),
   ("category", "分類", "Primary category of the item", "String"),
   ("subcategory", "子分類", "Subcategory of the item", "String"),
   ("brand", "品牌", "Brand of the item (e.g., Apple, Samsung, Nike, Adidas)", "String"),
   ("price", "價格", "Original price of the item", "Float"),
   ("stock_quantity", "庫存量", "Number of items available for sale", "Integer"),
   ("rating", "評分", "Average user rating", "Float"),
   ("is_active", "是否上架", "Whether the item is currently listed for sale", "Boolean"),
   ("created_at", "上架時間", "Time the item was listed", "DateTime")]

/-- The campaigns entries of column_definitions. -/
def campaignsColumns : List (String × String × String × String) :=
  [("campaign_id", "活動編號", "Unique identifier for each marketing campaign", "Integer"),
   ("campaign_name", "活動名稱", "Name of the marketing campaign", "String"),
   ("start_date", "開始日期", "Start date of the campaign", "DateTime"),
   ("end_date", "結束日期", "End date of the campaign", "DateTime"),
   ("discount_rate", "折扣比例", "Discount rate offered in the campaign", "Float"),
   ("channel", "推廣渠道", "Promotion channel (e.g., App, Website, Email, Social Media)", "String"),
   ("description", "活動說明", "Detailed description of the campaign", "String")]

/-- The transactions entries of column_definitions. -/
def transactionsColumns : List (String × String × String × String) :=
  [("transaction_id", "交易編號", "Unique identifier for each transaction", "Integer"),
   ("member_id", "會員編號", "Unique ID of the member making the transaction", "Integer"),
   ("campaign_id", "活動編號", "Associated marketing campaign for this transaction", "Integer (nullable)"),
   ("discount_rate", "折扣比例", "Discount rate used in this transaction (0–100%)", "Float"),
   ("final_price", "成交價格", "Final price after applying discount", "Float"),
   ("payment_method", "付款方式", "Payment method used (e.g., CreditCard, PayPal, ATM, LinePay)", "String"),
   ("transaction_time", "交易時間", "Time the transaction occurred", "DateTime")]

/-- The transaction_items entries of column_definitions. -/
def transactionItemsColumns : List (String × String × String × String) :=
  [("transaction_id", "交易編號", "Unique ID of the related main transaction", "Integer"),
   ("item_id", "商品編號", "Unique ID of the purchased item", "Integer"),
   ("quantity", "數量", "Quantity of the purchased item", "Integer"),
   ("unit_price", "單價", "Unit price of the item", "Float")]

/-- The column_definitions dict of create_schema, in insertion order. -/
def column_definitions : List (String × List (String × String × String × String)) :=
  [("members", membersColumns), ("items", itemsColumns), ("campaigns", campaignsColumns),
   ("transactions", transactionsColumns), ("transaction_items", transactionItemsColumns)]

/-- The table_definitions dict of create_schema. -/
def table_definitions : List (String × String) :=
  [("members", "Table that stores information about registered members."),
   ("items", "Table containing details of all items available for sale."),
   ("campaigns", "Table listing all marketing campaigns and related information."),
   ("transactions", "Table recording each transaction made by members."),
   ("transaction_items", "Table listing the specific items purchased in each transaction.")]

/-- Dict access table_definitions[table]. -/
def tableDefLookup (t : String) : String :=
  ((table_definitions.find? (fun p => p.1 == t)).map (fun p => p.2)).getD ""

/-- One DataFrame row as the ordered key-value pairs of the dict appended
by create_schema. -/
def schemaRow (t c d ty : String) : List (String × String) :=
  [("table_name", t), ("column_name", c), ("definition", d), ("data_type", ty)]

/-- create_schema (src/schema.py lines 70-90): per table, one table-level
row (sentinel column_name, data_type TABLE) followed by one row per column
built from tuple components 0, 2 and 3 — component 1 (the Chinese name) is
not used. -/
def create_schema : List (List (String × String)) :=
  column_definitions.flatMap (fun td =>
    schemaRow td.1 "__table__" (tableDefLookup td.1) "TABLE" ::
      td.2.map (fun field => schemaRow td.1 field.1 field.2.2.1 field.2.2.2))

/-- All Chinese column names appearing in the tuples of column_definitions. -/
def zhColumnNames : List String :=
  column_definitions.flatMap (fun td => td.2.map (fun field => field.2.1))

/-! ## src/retriever.py: per-table documents of init_retriever -/

/-- Dict-style access to a row value (empty when the key is absent). -/
def rowVal (row : List (String × String)) (k : String) : String :=
  ((row.find? (fun p => p.1 == k)).map (fun p => p.2)).getD ""

/-- The column labels of a DataFrame: the union of the row dict keys in
insertion order.  Iterating a pandas DataFrame yields exactly these. -/
def dfColumns (df : List (List (String × String))) : List String :=
  df.foldl (fun acc row => acc ++ ((row.map Prod.fst).filter (fun k => !(acc.contains k)))) []

/-- Keep the first occurrence of each name (order then discarded by sorting). -/
def dedupFirstAux : List String → List String → List String
  | [], _ => []
  | x :: rest, seen =>
    if seen.contains x then dedupFirstAux rest seen
    else x :: dedupFirstAux rest (x :: seen)

/-- Code-point lexicographic comparison, the order pandas sorts group keys by. -/
def strLt : List Char → List Char → Bool
  | [], [] => false
  | [], _ :: _ => true
  | _ :: _, [] => false
  | a :: as, b :: bs =>
    if a.toNat < b.toNat then true
    else if b.toNat < a.toNat then false
    else strLt as bs

/-- Insertion step of the sort over group keys. -/
def insertSorted (t : String) : List String → List String
  | [] => [t]
  | u :: rest => if strLt t.data u.data then t :: u :: rest else u :: insertSorted t rest

/-- Ascending sort of the group keys, as pandas groupby performs. -/
def sortStrings (l : List String) : List String := l.foldr insertSorted []

/-- df.groupby("table_name"): group keys in ascending order, each with the
sub-DataFrame of its rows (all columns retained). -/
def groupByTable (df : List (List (String × String))) :
    List (String × List (List (String × String))) :=
  (sortStrings (dedupFirstAux (df.map (fun r => rowVal r "table_name")) [])).map
    (fun t => (t, df.filter (fun r => rowVal r "table_name" == t)))

/-- The first document loop of init_retriever (src/retriever.py lines
28-33): the page content joins the iterated group — which yields the
DataFrame column labels, not the schema column names of the table. -/
def init_retriever_table_docs (df : List (List (String × String))) : List SchemaDocument :=
  (groupByTable df).map (fun g =>
    ⟨g.1 ++ ": " ++ String.intercalate ", " (dfColumns g.2), g.1⟩)

/-! # Proofs

First the supporting lemmas about the retry loop, then the claim theorems. -/

/-- A list sandwiched between two others is an infix of the concatenation. -/
theorem middle_isInfix (t u l : List Char) : l <:+: t ++ l ++ u := ⟨t, u, rfl⟩

/-- One unfolding step of the loop on a nonempty iteration list. -/
theorem sqlAttemptLoop_cons (gen : Nat → ChainInput → String) (db : SQLDatabaseModel)
    (question : String) (maxRetries i : Nat) (rest : List Nat) (ci : ChainInput) :
    sqlAttemptLoop gen db question maxRetries (i :: rest) ci =
      match db.run i (extractSQL (gen i ci)) with
      | .ok result =>
        (successMessage result, [⟨ci.input, gen i ci, extractSQL (gen i ci), .ok result⟩])
      | .error e =>
        if i = maxRetries - 1 then
          (failureMessage maxRetries e, [⟨ci.input, gen i ci, extractSQL (gen i ci), .error e⟩])
        else
          ((sqlAttemptLoop gen db question maxRetries rest
              { ci with input := correctiveInstruction question (extractSQL (gen i ci)) e }).1,
           ⟨ci.input, gen i ci, extractSQL (gen i ci), .error e⟩ ::
             (sqlAttemptLoop gen db question maxRetries rest
               { ci with input := correctiveInstruction question (extractSQL (gen i ci)) e }).2) :=
  rfl

/-- The head attempt of a nonempty iteration list is the attempt record of
the loop body on the incoming chain input. -/
theorem sqlAttemptLoop_cons_trace (gen : Nat → ChainInput → String) (db : SQLDatabaseModel)
    (question : String) (maxRetries i : Nat) (rest : List Nat) (ci : ChainInput) :
    ∃ t, (sqlAttemptLoop gen db question maxRetries (i :: rest) ci).2 =
      mkAttempt gen db i ci :: t := by
  cases h : db.run i (extractSQL (gen i ci)) with
  | ok r => exact ⟨[], by simp only [sqlAttemptLoop_cons, h, mkAttempt]⟩
  | error e =>
    by_cases hi : i = maxRetries - 1
    · exact ⟨[], by simp only [sqlAttemptLoop_cons, h, if_pos hi, mkAttempt]⟩
    · exact ⟨(sqlAttemptLoop gen db question maxRetries rest
        { ci with input := correctiveInstruction question (extractSQL (gen i ci)) e }).2,
        by simp only [sqlAttemptLoop_cons, h, if_neg hi, mkAttempt]⟩

/-- Consecutive attempts are chained: a non-final recorded attempt failed,
and the next attempt's instruction is the corrective rewrite built from the
original question, the failed statement and the error text. -/
theorem sqlAttemptLoop_chain (gen : Nat → ChainInput → String) (db : SQLDatabaseModel)
    (question : String) (maxRetries : Nat) (l : List Nat) :
    ∀ (ci : ChainInput) (j : Nat) (a b : SQLAttempt),
      (sqlAttemptLoop gen db question maxRetries l ci).2[j]? = some a →
      (sqlAttemptLoop gen db question maxRetries l ci).2[j + 1]? = some b →
      ∃ e, a.execResult = .error e ∧
        b.instruction = correctiveInstruction question a.sqlCode e := by
  induction l with
  | nil => intro ci j a b ha _; simp [sqlAttemptLoop] at ha
  | cons i rest ih =>
    intro ci j a b ha hb
    cases h : db.run i (extractSQL (gen i ci)) with
    | ok r => simp [sqlAttemptLoop_cons, h] at hb
    | error e =>
      by_cases hi : i = maxRetries - 1
      · simp [sqlAttemptLoop_cons, h, if_pos hi] at hb
      · simp only [sqlAttemptLoop_cons, h, if_neg hi] at ha hb
        cases j with
        | zero =>
          simp only [List.getElem?_cons_zero, Option.some.injEq] at ha
          simp only [List.getElem?_cons_succ] at hb
          cases rest with
          | nil => simp [sqlAttemptLoop] at hb
          | cons i2 rest2 =>
            obtain ⟨t, ht⟩ := sqlAttemptLoop_cons_trace gen db question maxRetries i2 rest2
              { ci with input := correctiveInstruction question (extractSQL (gen i ci)) e }
            rw [ht] at hb
            simp only [List.getElem?_cons_zero, Option.some.injEq] at hb
            refine ⟨e, ?_, ?_⟩
            · rw [← ha]
            · rw [← hb, ← ha]; rfl
        | succ j2 =>
          simp only [List.getElem?_cons_succ] at ha hb
          exact ih _ j2 a b ha hb

/-- When every execution call fails, the loop over the remaining indices
`i, i + 1, ..., maxRetries - 1` records one failed attempt per index and
returns the final-attempt failure message of the last error. -/
theorem sqlAttemptLoop_all_fail (gen : Nat → ChainInput → String) (db : SQLDatabaseModel)
    (question : String) (maxRetries : Nat)
    (herr : ∀ i s, ∃ e, db.run i s = .error e) :
    ∀ (k : Nat) (i : Nat) (ci : ChainInput), 1 ≤ k → i + k = maxRetries →
      ∃ t att e,
        sqlAttemptLoop gen db question maxRetries (List.range' i k) ci =
          (failureMessage maxRetries e, t ++ [att]) ∧
        (t ++ [att]).length = k ∧ att.execResult = .error e := by
  intro k
  induction k with
  | zero => intro i ci h1 _; omega
  | succ k2 ih =>
    intro i ci h1 h2
    obtain ⟨e, he⟩ := herr i (extractSQL (gen i ci))
    cases k2 with
    | zero =>
      have hi : i = maxRetries - 1 := by omega
      refine ⟨[], ⟨ci.input, gen i ci, extractSQL (gen i ci), .error e⟩, e, ?_, by simp, rfl⟩
      rw [List.range'_succ]
      simp only [sqlAttemptLoop_cons, he, if_pos hi]
      rfl
    | succ k3 =>
      have hi : ¬ i = maxRetries - 1 := by omega
      obtain ⟨t, att, e2, hloop, hlen, hres⟩ := ih (i + 1)
        { ci with input := correctiveInstruction question (extractSQL (gen i ci)) e }
        (by omega) (by omega)
      refine ⟨⟨ci.input, gen i ci, extractSQL (gen i ci), .error e⟩ :: t, att, e2, ?_, ?_, hres⟩
      · rw [List.range'_succ]
        simp only [sqlAttemptLoop_cons, he, if_neg hi]
        rw [hloop]
        rfl
      · simp only [List.length_append, List.length_cons] at hlen ⊢
        omega

/-- With at least one remaining iteration the loop returns from inside the
body: the result is the success message of the last recorded attempt or the
failure message of its error. -/
theorem sqlAttemptLoop_returns (gen : Nat → ChainInput → String) (db : SQLDatabaseModel)
    (question : String) (maxRetries : Nat) :
    ∀ (k : Nat) (i : Nat) (ci : ChainInput), 1 ≤ k → i + k = maxRetries →
      ∃ t att,
        (sqlAttemptLoop gen db question maxRetries (List.range' i k) ci).2 = t ++ [att] ∧
        ((∃ r, att.execResult = .ok r ∧
            (sqlAttemptLoop gen db question maxRetries (List.range' i k) ci).1 = successMessage r) ∨
         (∃ e, att.execResult = .error e ∧
            (sqlAttemptLoop gen db question maxRetries (List.range' i k) ci).1 =
              failureMessage maxRetries e)) := by
  intro k
  induction k with
  | zero => intro i ci h1 _; omega
  | succ k2 ih =>
    intro i ci h1 h2
    cases he : db.run i (extractSQL (gen i ci)) with
    | ok r =>
      refine ⟨[], ⟨ci.input, gen i ci, extractSQL (gen i ci), .ok r⟩, ?_, .inl ⟨r, rfl, ?_⟩⟩
      · rw [List.range'_succ]; simp only [sqlAttemptLoop_cons, he]; rfl
      · rw [List.range'_succ]; simp only [sqlAttemptLoop_cons, he]
    | error e =>
      by_cases hi : i = maxRetries - 1
      · refine ⟨[], ⟨ci.input, gen i ci, extractSQL (gen i ci), .error e⟩, ?_, .inr ⟨e, rfl, ?_⟩⟩
        · rw [List.range'_succ]; simp only [sqlAttemptLoop_cons, he, if_pos hi]; rfl
        · rw [List.range'_succ]; simp only [sqlAttemptLoop_cons, he, if_pos hi]
      · have hk : 1 ≤ k2 := by omega
        obtain ⟨t, att, htrace, hmsg⟩ := ih (i + 1)
          { ci with input := correctiveInstruction question (extractSQL (gen i ci)) e }
          hk (by omega)
        refine ⟨⟨ci.input, gen i ci, extractSQL (gen i ci), .error e⟩ :: t, att, ?_, ?_⟩
        · rw [List.range'_succ]
          simp only [sqlAttemptLoop_cons, he, if_neg hi]
          rw [htrace]
          rfl
        · rw [List.range'_succ]
          simp only [sqlAttemptLoop_cons, he, if_neg hi]
          exact hmsg

/-- The success message differs from the defensive fallback message. -/
theorem successMessage_ne_fallback (r : String) : successMessage r ≠ fallbackMessage := by
  intro h
  have h0 := congrArg (fun s : String => s.data[0]?) h
  simp only [successMessage, String.data_append] at h0
  rw [List.getElem?_append_left (by decide)] at h0
  exact absurd h0 (by decide)

/-- The final-attempt failure message differs from the defensive fallback
message, whatever the retry count and error text. -/
theorem failureMessage_ne_fallback (n : Nat) (e : String) :
    failureMessage n e ≠ fallbackMessage := by
  intro h
  have h0 := congrArg (fun s : String => s.data[10]?) h
  simp only [failureMessage, String.data_append] at h0
  rw [List.append_assoc, List.append_assoc, List.getElem?_append_left (by decide)] at h0
  exact absurd h0 (by decide)

/-- The corrective instruction embeds the original question. -/
theorem corrective_contains_question (q s e : String) :
    q.data <:+: (correctiveInstruction q s e).data := by
  refine ⟨("The previous attempt to answer the question " ++ squote).data,
    (squote ++ " failed. " ++ "The generated SQL was:\n" ++ s ++ "\n" ++
      "It produced the following database error:\n" ++ e ++ "\n" ++
      "Please analyze the error and the database schema to generate a corrected SQL query.").data,
    ?_⟩
  simp [correctiveInstruction, String.data_append, List.append_assoc]

/-- The corrective instruction embeds the failed statement. -/
theorem corrective_contains_statement (q s e : String) :
    s.data <:+: (correctiveInstruction q s e).data := by
  refine ⟨("The previous attempt to answer the question " ++ squote ++ q ++ squote ++
      " failed. " ++ "The generated SQL was:\n").data,
    ("\n" ++ "It produced the following database error:\n" ++ e ++ "\n" ++
      "Please analyze the error and the database schema to generate a corrected SQL query.").data,
    ?_⟩
  simp [correctiveInstruction, String.data_append, List.append_assoc]

/-- The corrective instruction embeds the database error text. -/
theorem corrective_contains_error (q s e : String) :
    e.data <:+: (correctiveInstruction q s e).data := by
  refine ⟨("The previous attempt to answer the question " ++ squote ++ q ++ squote ++
      " failed. " ++ "The generated SQL was:\n" ++ s ++ "\n" ++
      "It produced the following database error:\n").data,
    ("\n" ++ "Please analyze the error and the database schema to generate a corrected SQL query.").data,
    ?_⟩
  simp [correctiveInstruction, String.data_append, List.append_assoc]

/-- C1: for every question on which every one of the max_retries attempts
fails at execution, safe_sql_query makes exactly max_retries generation
calls and exactly max_retries execution calls (the trace records one of
each per entry), terminates at the configured maximum, and returns the
failure string containing the final error text rather than an exception
(the embedding is a total function into a plain string). -/
theorem safe_sql_query_exhausts_retries_on_persistent_failure
    (gen : Nat → ChainInput → String) (db : SQLDatabaseModel) (question : String)
    (maxRetries : Nat) (hn : 1 ≤ maxRetries)
    (herr : ∀ i s, ∃ e, db.run i s = .error e) :
    ∃ t att e,
      safe_sql_query gen db question maxRetries = (failureMessage maxRetries e, t ++ [att]) ∧
      (t ++ [att]).length = maxRetries ∧
      att.execResult = .error e ∧
      e.data <:+: (failureMessage maxRetries e).data := by
  obtain ⟨t, att, e, h1, h2, h3⟩ :=
    sqlAttemptLoop_all_fail gen db question maxRetries herr maxRetries 0
      ⟨question, db.get_table_info, db.dialect⟩ hn (by omega)
  refine ⟨t, att, e, ?_, h2, h3, ?_⟩
  · simp only [safe_sql_query, List.range_eq_range']
    exact h1
  · refine ⟨("Failed to execute SQL after " ++ toString maxRetries ++
      " attempts. Last error: ").data, [], ?_⟩
    simp [failureMessage, String.data_append, List.append_assoc]

/-- Witness for C1 at a concrete always-failing database. -/
theorem safe_sql_query_exhausts_retries_witness :
    ∃ t att e,
      safe_sql_query (fun _ _ => "SELECT x")
          ⟨"ti", "sqlite", fun _ _ => .error "boom", "", fun _ => ""⟩ "q" 2 =
        (failureMessage 2 e, t ++ [att]) ∧
      (t ++ [att]).length = 2 ∧
      att.execResult = .error e ∧
      e.data <:+: (failureMessage 2 e).data :=
  safe_sql_query_exhausts_retries_on_persistent_failure (fun _ _ => "SELECT x")
    ⟨"ti", "sqlite", fun _ _ => .error "boom", "", fun _ => ""⟩ "q" 2 (by decide)
    (fun _ _ => ⟨"boom", rfl⟩)

/-- C2: for every question whose first generated statement executes
successfully, safe_sql_query returns on attempt 1 with the success message
containing the execution result; the trace is a single attempt, so exactly
one generation call and one execution call occur and no further attempts
are performed. -/
theorem safe_sql_query_first_attempt_success
    (gen : Nat → ChainInput → String) (db : SQLDatabaseModel) (question : String)
    (maxRetries : Nat) (r : String) (hn : 1 ≤ maxRetries)
    (hok : db.run 0 (extractSQL (gen 0 ⟨question, db.get_table_info, db.dialect⟩)) = .ok r) :
    safe_sql_query gen db question maxRetries =
      (successMessage r,
        [⟨question, gen 0 ⟨question, db.get_table_info, db.dialect⟩,
          extractSQL (gen 0 ⟨question, db.get_table_info, db.dialect⟩), .ok r⟩]) ∧
    r.data <:+: (successMessage r).data := by
  obtain ⟨m, rfl⟩ : ∃ m, maxRetries = m + 1 := ⟨maxRetries - 1, by omega⟩
  constructor
  · simp only [safe_sql_query, List.range_eq_range', List.range'_succ]
    simp only [sqlAttemptLoop_cons, hok]
  · exact ⟨"Query executed successfully. Result: ".data, [],
      by simp [successMessage, String.data_append]⟩

/-- Witness for C2 at a concrete first-try success. -/
theorem safe_sql_query_first_attempt_success_witness :
    safe_sql_query (fun _ _ => "SQLQuery: SELECT 1\nSQLResult:")
        ⟨"ti", "sqlite", fun _ _ => .ok "[(1,)]", "", fun _ => ""⟩ "how many members" 3 =
      (successMessage "[(1,)]",
        [⟨"how many members", "SQLQuery: SELECT 1\nSQLResult:",
          extractSQL "SQLQuery: SELECT 1\nSQLResult:", .ok "[(1,)]"⟩]) ∧
    "[(1,)]".data <:+: (successMessage "[(1,)]").data :=
  safe_sql_query_first_attempt_success (fun _ _ => "SQLQuery: SELECT 1\nSQLResult:")
    ⟨"ti", "sqlite", fun _ _ => .ok "[(1,)]", "", fun _ => ""⟩ "how many members" 3 "[(1,)]"
    (by decide) rfl

/-- C3: for every non-final attempt that fails at execution, the
instruction fed to the next attempt is the corrective rewrite embedding
the original question, the statement generated on the failed attempt, and
its database error text. -/
theorem safe_sql_query_corrective_instruction_chain
    (gen : Nat → ChainInput → String) (db : SQLDatabaseModel) (question : String)
    (maxRetries j : Nat) (a b : SQLAttempt)
    (ha : (safe_sql_query gen db question maxRetries).2[j]? = some a)
    (hb : (safe_sql_query gen db question maxRetries).2[j + 1]? = some b) :
    ∃ e, a.execResult = .error e ∧
      b.instruction = correctiveInstruction question a.sqlCode e ∧
      question.data <:+: b.instruction.data ∧
      a.sqlCode.data <:+: b.instruction.data ∧
      e.data <:+: b.instruction.data := by
  obtain ⟨e, h1, h2⟩ := sqlAttemptLoop_chain gen db question maxRetries
    (List.range maxRetries) ⟨question, db.get_table_info, db.dialect⟩ j a b ha hb
  refine ⟨e, h1, h2, ?_, ?_, ?_⟩
  · rw [h2]; exact corrective_contains_question question a.sqlCode e
  · rw [h2]; exact corrective_contains_statement question a.sqlCode e
  · rw [h2]; exact corrective_contains_error question a.sqlCode e

/-- Witness for C3 at a concrete two-attempt failing run. -/
theorem safe_sql_query_corrective_chain_witness :
    ∃ e, (SQLAttempt.mk "q" "SELECT a" "SELECT a" (.error "no such column")).execResult =
        .error e ∧
      (SQLAttempt.mk (correctiveInstruction "q" "SELECT a" "no such column") "SELECT b"
          "SELECT b" (.error "no such column")).instruction =
          correctiveInstruction "q"
            (SQLAttempt.mk "q" "SELECT a" "SELECT a" (.error "no such column")).sqlCode e ∧
      "q".data <:+: (SQLAttempt.mk (correctiveInstruction "q" "SELECT a" "no such column")
        "SELECT b" "SELECT b" (.error "no such column")).instruction.data ∧
      (SQLAttempt.mk "q" "SELECT a" "SELECT a" (.error "no such column")).sqlCode.data <:+:
        (SQLAttempt.mk (correctiveInstruction "q" "SELECT a" "no such column") "SELECT b"
          "SELECT b" (.error "no such column")).instruction.data ∧
      e.data <:+: (SQLAttempt.mk (correctiveInstruction "q" "SELECT a" "no such column")
        "SELECT b" "SELECT b" (.error "no such column")).instruction.data :=
  safe_sql_query_corrective_instruction_chain
    (fun i _ => if i = 0 then "SELECT a" else "SELECT b")
    ⟨"ti", "sqlite", fun _ _ => .error "no such column", "", fun _ => ""⟩ "q" 2 0
    (SQLAttempt.mk "q" "SELECT a" "SELECT a" (.error "no such column"))
    (SQLAttempt.mk (correctiveInstruction "q" "SELECT a" "no such column") "SELECT b"
      "SELECT b" (.error "no such column"))
    (by decide) (by decide)

/-- C4 counterexample: on a run whose single (hence final) attempt fails,
the returned failure message does not contain the last generated
statement, refuting the claim that it contains both the statement and the
error. -/
theorem failure_message_omits_statement_counterexample :
    safe_sql_query (fun _ _ => "SELECT 1")
        ⟨"ti", "sqlite", fun _ _ => .error "boom", "", fun _ => ""⟩ "q" 1 =
      (failureMessage 1 "boom", [⟨"q", "SELECT 1", "SELECT 1", .error "boom"⟩]) ∧
    ¬ "SELECT 1".data <:+:
        (safe_sql_query (fun _ _ => "SELECT 1")
          ⟨"ti", "sqlite", fun _ _ => .error "boom", "", fun _ => ""⟩ "q" 1).1.data := by
  constructor
  · decide
  · decide

/-- C4 (amended): for every question whose final allowed attempt fails at
execution, the returned failure message is the fixed template containing
the retry count and the last error text; the last generated statement is
not part of the template. -/
theorem failure_message_contains_last_error
    (gen : Nat → ChainInput → String) (db : SQLDatabaseModel) (question : String)
    (maxRetries : Nat) (hn : 1 ≤ maxRetries)
    (herr : ∀ i s, ∃ e, db.run i s = .error e) :
    ∃ t att e,
      (safe_sql_query gen db question maxRetries).2 = t ++ [att] ∧
      att.execResult = .error e ∧
      (safe_sql_query gen db question maxRetries).1 = failureMessage maxRetries e ∧
      e.data <:+: (safe_sql_query gen db question maxRetries).1.data := by
  obtain ⟨t, att, e, h1, _, h3⟩ :=
    sqlAttemptLoop_all_fail gen db question maxRetries herr maxRetries 0
      ⟨question, db.get_table_info, db.dialect⟩ hn (by omega)
  have hout : safe_sql_query gen db question maxRetries =
      (failureMessage maxRetries e, t ++ [att]) := by
    simp only [safe_sql_query, List.range_eq_range']
    exact h1
  refine ⟨t, att, e, by rw [hout], h3, by rw [hout], ?_⟩
  rw [hout]
  refine ⟨("Failed to execute SQL after " ++ toString maxRetries ++
    " attempts. Last error: ").data, [], ?_⟩
  simp [failureMessage, String.data_append, List.append_assoc]

/-- Witness for the amended C4 at a concrete single-attempt failure. -/
theorem failure_message_contains_last_error_witness :
    ∃ t att e,
      (safe_sql_query (fun _ _ => "SELECT 2")
        ⟨"ti", "sqlite", fun _ _ => .error "syntax error", "", fun _ => ""⟩ "q2" 1).2 =
        t ++ [att] ∧
      att.execResult = .error e ∧
      (safe_sql_query (fun _ _ => "SELECT 2")
        ⟨"ti", "sqlite", fun _ _ => .error "syntax error", "", fun _ => ""⟩ "q2" 1).1 =
        failureMessage 1 e ∧
      e.data <:+: (safe_sql_query (fun _ _ => "SELECT 2")
        ⟨"ti", "sqlite", fun _ _ => .error "syntax error", "", fun _ => ""⟩ "q2" 1).1.data :=
  failure_message_contains_last_error (fun _ _ => "SELECT 2")
    ⟨"ti", "sqlite", fun _ _ => .error "syntax error", "", fun _ => ""⟩ "q2" 1 (by decide)
    (fun _ _ => ⟨"syntax error", rfl⟩)

/-- C8: for every max_retries at least 1, safe_sql_query returns from
inside the attempt loop — its message is the success or final-failure
message of the last recorded attempt and is never the generic defensive
fallback — while max_retries = 0 returns exactly the fallback with an
empty trace, so no generation or execution call is made. -/
theorem safe_sql_query_fallback_unreachable
    (gen : Nat → ChainInput → String) (db : SQLDatabaseModel) (question : String) :
    (∀ maxRetries, 1 ≤ maxRetries →
      ∃ t att, (safe_sql_query gen db question maxRetries).2 = t ++ [att] ∧
        ((∃ r, att.execResult = .ok r ∧
            (safe_sql_query gen db question maxRetries).1 = successMessage r) ∨
         (∃ e, att.execResult = .error e ∧
            (safe_sql_query gen db question maxRetries).1 = failureMessage maxRetries e)) ∧
        (safe_sql_query gen db question maxRetries).1 ≠ fallbackMessage) ∧
    safe_sql_query gen db question 0 = (fallbackMessage, []) := by
  constructor
  · intro n hn
    have hdef : safe_sql_query gen db question n =
        sqlAttemptLoop gen db question n (List.range' 0 n)
          ⟨question, db.get_table_info, db.dialect⟩ := by
      simp only [safe_sql_query, List.range_eq_range']
    obtain ⟨t, att, htrace, hmsg⟩ := sqlAttemptLoop_returns gen db question n n 0
      ⟨question, db.get_table_info, db.dialect⟩ hn (by omega)
    refine ⟨t, att, by rw [hdef]; exact htrace, ?_, ?_⟩
    · rw [hdef]; exact hmsg
    · rw [hdef]
      rcases hmsg with ⟨r, _, hr⟩ | ⟨e, _, he⟩
      · rw [hr]; exact successMessage_ne_fallback r
      · rw [he]; exact failureMessage_ne_fallback n e
  · rfl

/-- Witness for C8, applying it at a concrete run with one retry and at
zero retries. -/
theorem safe_sql_query_fallback_unreachable_witness :
    (∃ t att,
      (safe_sql_query (fun _ _ => "SELECT 3")
        ⟨"ti", "sqlite", fun _ _ => .ok "[(3,)]", "", fun _ => ""⟩ "q3" 1).2 = t ++ [att] ∧
      ((∃ r, att.execResult = .ok r ∧
          (safe_sql_query (fun _ _ => "SELECT 3")
            ⟨"ti", "sqlite", fun _ _ => .ok "[(3,)]", "", fun _ => ""⟩ "q3" 1).1 =
            successMessage r) ∨
       (∃ e, att.execResult = .error e ∧
          (safe_sql_query (fun _ _ => "SELECT 3")
            ⟨"ti", "sqlite", fun _ _ => .ok "[(3,)]", "", fun _ => ""⟩ "q3" 1).1 =
            failureMessage 1 e)) ∧
      (safe_sql_query (fun _ _ => "SELECT 3")
        ⟨"ti", "sqlite", fun _ _ => .ok "[(3,)]", "", fun _ => ""⟩ "q3" 1).1 ≠
        fallbackMessage) ∧
    safe_sql_query (fun _ _ => "SELECT 3")
      ⟨"ti", "sqlite", fun _ _ => .ok "[(3,)]", "", fun _ => ""⟩ "q3" 0 =
      (fallbackMessage, []) :=
  ⟨(safe_sql_query_fallback_unreachable (fun _ _ => "SELECT 3")
      ⟨"ti", "sqlite", fun _ _ => .ok "[(3,)]", "", fun _ => ""⟩ "q3").1 1 (by decide),
   (safe_sql_query_fallback_unreachable (fun _ _ => "SELECT 3")
      ⟨"ti", "sqlite", fun _ _ => .ok "[(3,)]", "", fun _ => ""⟩ "q3").2⟩

/-! ## Lemmas about the statement-extraction step -/

/-- The search helper returns the least occurrence index. -/
theorem findFromAux_eq_some (pat : List Char) :
    ∀ (t : List Char) (i m : Nat),
      pat.isPrefixOf (t.drop m) = true →
      (∀ k, k < m → pat.isPrefixOf (t.drop k) = false) →
      findFromAux pat t i = some (i + m) := by
  intro t
  induction t with
  | nil =>
    intro i m hm hmin
    cases m with
    | zero => simp only [List.drop_zero] at hm; simp [findFromAux, hm]
    | succ m2 =>
      have h0 := hmin 0 (by omega)
      rw [List.drop_nil] at hm
      rw [List.drop_zero] at h0
      rw [h0] at hm
      cases hm
  | cons c rest ih =>
    intro i m hm hmin
    cases m with
    | zero =>
      rw [List.drop_zero] at hm
      simp [findFromAux, hm]
    | succ m2 =>
      have h0 := hmin 0 (by omega)
      rw [List.drop_zero] at h0
      rw [findFromAux, h0]
      simp only [Bool.false_eq_true, if_false, reduceIte]
      have hstep := ih (i + 1) m2 (by simpa using hm)
        (fun k hk => by simpa using hmin (k + 1) (by omega))
      rw [hstep]
      congr 1
      omega

/-- The search helper finds nothing when the pattern occurs nowhere. -/
theorem findFromAux_eq_none (pat : List Char) :
    ∀ (t : List Char) (i : Nat),
      (∀ k, pat.isPrefixOf (t.drop k) = false) →
      findFromAux pat t i = none := by
  intro t
  induction t with
  | nil =>
    intro i h
    have h0 := h 0
    rw [List.drop_zero] at h0
    simp [findFromAux, h0]
  | cons c rest ih =>
    intro i h
    have h0 := h 0
    rw [List.drop_zero] at h0
    rw [findFromAux, h0]
    simp only [Bool.false_eq_true, if_false, reduceIte]
    exact ih (i + 1) (fun k => by simpa using h (k + 1))

/-- A failed search means the pattern occurs nowhere in the suffix. -/
theorem findFromAux_none_elim (pat : List Char) :
    ∀ (t : List Char) (i : Nat), findFromAux pat t i = none →
      ∀ k, pat.isPrefixOf (t.drop k) = false := by
  intro t
  induction t with
  | nil =>
    intro i h k
    rw [List.drop_nil]
    rw [findFromAux] at h
    by_cases hp : pat.isPrefixOf [] = true
    · rw [if_pos hp] at h; cases h
    · exact Bool.not_eq_true _ |>.mp hp
  | cons c rest ih =>
    intro i h k
    rw [findFromAux] at h
    by_cases hp : pat.isPrefixOf (c :: rest) = true
    · rw [if_pos hp] at h; cases h
    · rw [if_neg hp] at h
      cases k with
      | zero => rw [List.drop_zero]; exact Bool.not_eq_true _ |>.mp hp
      | succ k2 => simpa using ih (i + 1) h k2

/-- findFrom yields the least occurrence at or after the start index. -/
theorem findFrom_eq_some (pat l : List Char) (a m : Nat)
    (h1 : pat.isPrefixOf (l.drop (a + m)) = true)
    (h2 : ∀ k, k < m → pat.isPrefixOf (l.drop (a + k)) = false) :
    findFrom pat l a = some (a + m) := by
  rw [findFrom]
  exact findFromAux_eq_some pat (l.drop a) a m
    (by rw [List.drop_drop]; exact h1)
    (fun k hk => by rw [List.drop_drop]; exact h2 k hk)

/-- A failed findFrom stays failed from any later start index. -/
theorem findFrom_none_mono (pat l : List Char) (a b : Nat) (hab : a ≤ b)
    (h : findFrom pat l a = none) : findFrom pat l b = none := by
  have hall := findFromAux_none_elim pat (l.drop a) a h
  rw [findFrom]
  apply findFromAux_eq_none
  intro k
  rw [List.drop_drop]
  have := hall (b - a + k)
  rw [List.drop_drop] at this
  have harg : a + (b - a + k) = b + k := by omega
  rwa [harg] at this

/-- The lazy group ends at the found result marker, for any whitespace
backtrack level. -/
theorem tryW_eq_some (l : List Char) (start w r : Nat)
    (h : findFrom sqlResultMarker l (start + w) = some r) :
    tryW l start w = some ((l.drop (start + w)).take (r - (start + w))) := by
  cases w with
  | zero => rw [Nat.add_zero] at h ⊢; simp only [tryW, h]
  | succ w2 => simp only [tryW, h]

/-- With no result marker at or after the start, every backtrack level of
the lazy group search fails. -/
theorem tryW_eq_none (l : List Char) (start : Nat)
    (h : findFrom sqlResultMarker l start = none) :
    ∀ w, tryW l start w = none := by
  intro w
  induction w with
  | zero => simp only [tryW, h]
  | succ w2 ih =>
    have h2 : findFrom sqlResultMarker l (start + (w2 + 1)) = none :=
      findFrom_none_mono _ _ _ _ (by omega) h
    simp only [tryW, h2, ih]

/-- takeWhile ignores a second list when the first already contains a
failing element. -/
theorem takeWhile_append_of_lt (p : Char → Bool) :
    ∀ (l l2 : List Char), (l.takeWhile p).length < l.length →
      (l ++ l2).takeWhile p = l.takeWhile p := by
  intro l
  induction l with
  | nil => intro l2 h; simp at h
  | cons c rest ih =>
    intro l2 h
    by_cases hc : p c = true
    · rw [List.cons_append, List.takeWhile_cons_of_pos hc, List.takeWhile_cons_of_pos hc]
      rw [List.takeWhile_cons_of_pos hc] at h
      simp only [List.length_cons] at h
      rw [ih l2 (by omega)]
    · rw [List.cons_append, List.takeWhile_cons_of_neg hc, List.takeWhile_cons_of_neg hc]

/-- Dropping the matched prefix length is the same as dropWhile. -/
theorem drop_takeWhile_length (p : Char → Bool) :
    ∀ l : List Char, l.drop (l.takeWhile p).length = l.dropWhile p := by
  intro l
  induction l with
  | nil => rfl
  | cons c rest ih =>
    by_cases hc : p c = true
    · rw [List.takeWhile_cons_of_pos hc, List.dropWhile_cons_of_pos hc]
      simpa using ih
    · rw [List.takeWhile_cons_of_neg hc, List.dropWhile_cons_of_neg hc]
      rfl

/-- dropWhile is idempotent. -/
theorem dropWhile_dropWhile (p : Char → Bool) :
    ∀ l : List Char, (l.dropWhile p).dropWhile p = l.dropWhile p := by
  intro l
  induction l with
  | nil => rfl
  | cons c rest ih =>
    by_cases hc : p c = true
    · rw [List.dropWhile_cons_of_pos hc]; exact ih
    · rw [List.dropWhile_cons_of_neg hc, List.dropWhile_cons_of_neg hc]

/-- Stripping is unaffected by first removing the leading whitespace. -/
theorem pyStrip_dropWhile (l : List Char) :
    pyStrip (l.dropWhile pySpace) = pyStrip l := by
  rw [pyStrip, pyStrip, dropWhile_dropWhile]

/-- The stripped list is an infix of the original. -/
theorem pyStrip_isInfix (l : List Char) : pyStrip l <:+: l := by
  obtain ⟨v, hv⟩ : l.dropWhile pySpace <:+ l := List.dropWhile_suffix pySpace
  obtain ⟨u, hu⟩ : (l.dropWhile pySpace).reverse.dropWhile pySpace <:+
      (l.dropWhile pySpace).reverse := List.dropWhile_suffix pySpace
  refine ⟨v, u.reverse, ?_⟩
  have hu2 := congrArg List.reverse hu
  rw [List.reverse_append, List.reverse_reverse] at hu2
  rw [pyStrip, List.append_assoc, hu2, hv]

/-- The code fence is not an infix of the empty list. -/
theorem codeFence_not_infix_nil : ¬ codeFence <:+: ([] : List Char) := by decide

/-- The fence-removal scan never moves a leading backtick into existence:
if its output starts with a backtick, so did its input. -/
theorem replaceAllGo_prefix_one (fuel : Nat) (s : List Char)
    (h : [backtick] <+: replaceAllGo codeFence [] fuel s) : [backtick] <+: s := by
  cases s with
  | nil =>
    have hout : replaceAllGo codeFence [] fuel ([] : List Char) = [] := by
      cases fuel <;> rfl
    rwa [hout] at h
  | cons c rest =>
    cases fuel with
    | zero => exact h
    | succ f2 =>
      by_cases hp : codeFence.isPrefixOf (c :: rest) = true
      · have h1 : codeFence <+: c :: rest := List.isPrefixOf_iff_prefix.mp hp
        exact List.IsPrefix.trans (by decide) h1
      · simp only [replaceAllGo, if_neg hp] at h
        rw [List.cons_prefix_cons] at h
        exact List.cons_prefix_cons.mpr ⟨h.1, List.nil_prefix⟩

/-- Likewise for a leading pair of backticks. -/
theorem replaceAllGo_prefix_two (fuel : Nat) (s : List Char)
    (h : [backtick, backtick] <+: replaceAllGo codeFence [] fuel s) :
    [backtick, backtick] <+: s := by
  cases s with
  | nil =>
    have hout : replaceAllGo codeFence [] fuel ([] : List Char) = [] := by
      cases fuel <;> rfl
    rwa [hout] at h
  | cons c rest =>
    cases fuel with
    | zero => exact h
    | succ f2 =>
      by_cases hp : codeFence.isPrefixOf (c :: rest) = true
      · have h1 : codeFence <+: c :: rest := List.isPrefixOf_iff_prefix.mp hp
        exact List.IsPrefix.trans (by decide) h1
      · simp only [replaceAllGo, if_neg hp] at h
        rw [List.cons_prefix_cons] at h
        exact List.cons_prefix_cons.mpr ⟨h.1, replaceAllGo_prefix_one f2 rest h.2⟩

/-- After removing every occurrence of the plain code fence, no occurrence
remains (the pattern is a run of one repeated character, so removals cannot
splice a new occurrence together). -/
theorem replaceAllGo_no_fence :
    ∀ (fuel : Nat) (s : List Char), s.length ≤ fuel →
      ¬ codeFence <:+: replaceAllGo codeFence [] fuel s := by
  intro fuel
  induction fuel with
  | zero =>
    intro s hs
    have hnil : s = [] := by cases s <;> simp_all
    subst hnil
    exact codeFence_not_infix_nil
  | succ f2 ih =>
    intro s hs
    cases s with
    | nil =>
      have hout : replaceAllGo codeFence [] (f2 + 1) ([] : List Char) = [] := rfl
      rw [hout]
      exact codeFence_not_infix_nil
    | cons c rest =>
      by_cases hp : codeFence.isPrefixOf (c :: rest) = true
      · simp only [replaceAllGo, if_pos hp, List.nil_append]
        apply ih
        rw [List.length_drop]
        have h3 : codeFence.length = 3 := rfl
        simp only [List.length_cons] at hs ⊢
        omega
      · simp only [replaceAllGo, if_neg hp]
        intro h
        rcases List.infix_cons_iff.mp h with hpre | hinf
        · have hcf : codeFence = backtick :: backtick :: [backtick] := by decide
          rw [hcf, List.cons_prefix_cons] at hpre
          obtain ⟨hc, hpre2⟩ := hpre
          have htwo := replaceAllGo_prefix_two f2 rest hpre2
          apply hp
          apply List.isPrefixOf_iff_prefix.mpr
          rw [hcf, List.cons_prefix_cons]
          exact ⟨hc, htwo⟩
        · exact ih rest (by simp only [List.length_cons] at hs; omega) hinf

/-- The cleaned statement contains no triple-backtick fence. -/
theorem cleanSQLText_no_fence (x : List Char) : ¬ codeFence <:+: cleanSQLText x := by
  intro h
  have h2 := List.IsInfix.trans h (pyStrip_isInfix _)
  exact replaceAllGo_no_fence _ _ le_rfl h2

/-- C5: the extraction step yields the cleaned region between the query
marker and the result marker when the marker pair is present (first
conjunct, for any text whose first query-marker occurrence is followed by
a first result-marker occurrence right after the delimited body); yields
the whole text, cleaned, when no marker pair is found (second conjunct);
and strips the triple-backtick code-fence decoration from the extracted
statement (third conjunct), the marker pair itself being excluded from the
extracted region by the first conjunct. -/
theorem extractSQL_marker_extraction :
    (∀ pre body post : List Char,
      findFrom sqlQueryMarker
          (pre ++ sqlQueryMarker ++ body ++ sqlResultMarker ++ post) 0 = some pre.length →
      (∀ k ∈ List.range (pre.length + 9 + body.length), pre.length + 9 ≤ k →
        sqlResultMarker.isPrefixOf
          ((pre ++ sqlQueryMarker ++ body ++ sqlResultMarker ++ post).drop k) = false) →
      (body.takeWhile pySpace).length < body.length →
      extractSQLCore (pre ++ sqlQueryMarker ++ body ++ sqlResultMarker ++ post) =
        cleanSQLText body) ∧
    (∀ l : List Char,
      (findFrom sqlQueryMarker l 0 = none ∨
        ∃ q, findFrom sqlQueryMarker l 0 = some q ∧
          findFrom sqlResultMarker l (q + 9) = none) →
      extractSQLCore l = cleanSQLText l) ∧
    (∀ raw : String, ¬ codeFence <:+: (extractSQL raw).data) := by
  refine ⟨?_, ?_, ?_⟩
  · intro pre body post h1 h2 h3
    have h9 : sqlQueryMarker.length = 9 := rfl
    set s := pre ++ sqlQueryMarker ++ body ++ sqlResultMarker ++ post with hsdef
    have hA : (pre ++ sqlQueryMarker).length = pre.length + 9 := by
      rw [List.length_append, h9]
    have hB : (pre ++ sqlQueryMarker ++ body).length = pre.length + 9 + body.length := by
      rw [List.length_append, hA]
    have hdropA : s.drop (pre.length + 9) = body ++ (sqlResultMarker ++ post) := by
      rw [hsdef, ← hA]
      have hsplit : pre ++ sqlQueryMarker ++ body ++ sqlResultMarker ++ post =
          (pre ++ sqlQueryMarker) ++ (body ++ (sqlResultMarker ++ post)) := by
        simp [List.append_assoc]
      rw [hsplit, List.drop_left]
    have hdropB : s.drop (pre.length + 9 + body.length) = sqlResultMarker ++ post := by
      rw [hsdef, ← hB]
      have hsplit : pre ++ sqlQueryMarker ++ body ++ sqlResultMarker ++ post =
          (pre ++ sqlQueryMarker ++ body) ++ (sqlResultMarker ++ post) := by
        simp [List.append_assoc]
      rw [hsplit, List.drop_left]
    have hws : wsRunLen (s.drop (pre.length + 9)) = (body.takeWhile pySpace).length := by
      rw [hdropA, wsRunLen, takeWhile_append_of_lt pySpace body _ h3]
    have hwle : (body.takeWhile pySpace).length ≤ body.length := le_of_lt h3
    have hfind : findFrom sqlResultMarker s
        (pre.length + 9 + (body.takeWhile pySpace).length) =
        some (pre.length + 9 + body.length) := by
      have harith : pre.length + 9 + body.length =
          (pre.length + 9 + (body.takeWhile pySpace).length) +
            (body.length - (body.takeWhile pySpace).length) := by omega
      rw [harith]
      apply findFrom_eq_some
      · rw [← harith, hdropB]
        exact List.isPrefixOf_iff_prefix.mpr (List.prefix_append _ _)
      · intro k hk
        have hmem : pre.length + 9 + (body.takeWhile pySpace).length + k ∈
            List.range (pre.length + 9 + body.length) := List.mem_range.mpr (by omega)
        exact h2 _ hmem (by omega)
    have hdropw : s.drop (pre.length + 9 + (body.takeWhile pySpace).length) =
        body.drop (body.takeWhile pySpace).length ++ (sqlResultMarker ++ post) := by
      have hsplit := List.drop_drop (body.takeWhile pySpace).length (pre.length + 9) s
      rw [← hsplit, hdropA, List.drop_append_of_le_length hwle]
    have hgroup : tryW s (pre.length + 9) (body.takeWhile pySpace).length =
        some (body.drop (body.takeWhile pySpace).length) := by
      rw [tryW_eq_some s (pre.length + 9) (body.takeWhile pySpace).length
        (pre.length + 9 + body.length) hfind]
      congr 1
      rw [hdropw]
      have hlen2 : (body.drop (body.takeWhile pySpace).length).length =
          pre.length + 9 + body.length -
            (pre.length + 9 + (body.takeWhile pySpace).length) := by
        rw [List.length_drop]
        omega
      exact List.take_left' hlen2
    simp only [extractSQLCore, matchGroup1, h1, h9, hws, hgroup]
    rw [drop_takeWhile_length]
    rw [cleanSQLText, cleanSQLText, pyStrip_dropWhile]
  · intro l hl
    rcases hl with hnone | ⟨q, hq, hrnone⟩
    · simp only [extractSQLCore, matchGroup1, hnone]
    · have h9 : sqlQueryMarker.length = 9 := rfl
      have htry := tryW_eq_none l (q + 9) hrnone
      simp only [extractSQLCore, matchGroup1, hq, h9, htry]
  · intro raw
    exact cleanSQLText_no_fence _

/-- Witness for C5: a raw model output with surrounding narration, a
fenced statement between the marker pair, and a trailing result is reduced
to the bare statement. -/
theorem extractSQL_marker_extraction_witness :
    extractSQLCore ("Thought: run\n".data ++ sqlQueryMarker ++
        "\n```sql\nSELECT * FROM members\n```\n".data ++ sqlResultMarker ++
        " [(42,)]".data) = "SELECT * FROM members".data := by
  have h := extractSQL_marker_extraction.1 "Thought: run\n".data
    "\n```sql\nSELECT * FROM members\n```\n".data " [(42,)]".data
    (by decide) (by decide) (by decide)
  rw [h]
  decide

/-- C6 counterexample: schema_lookup, one of the four registered tools,
hands the raw retriever document list back from its wrapped function — a
structured value, not a string serialized at the tool boundary — refuting
the claim that every tool's invocation returns a string. -/
theorem schema_lookup_returns_documents_counterexample :
    build_schema_tool (fun _ => []) ∈
      build_agent_tools (fun _ _ => "")
        ⟨"ti", "sqlite", fun _ _ => .error "", "", fun _ => ""⟩ (fun _ => []) ∧
    ((build_schema_tool (fun _ => [])).func "meaning of member_level").isText = false := by
  constructor
  · exact List.Mem.tail _ (List.Mem.tail _ (List.Mem.tail _ (List.Mem.head _)))
  · rfl

/-- C6 (amended): of the four registered tools, list_tables,
describe_table and sql_query return a text observation for every string
input; schema_lookup returns the raw list of retriever documents, which is
rendered to text only later, when the agent loop appends the observation
to the scratchpad. -/
theorem tool_invocation_output_shapes
    (gen : Nat → ChainInput → String) (db : SQLDatabaseModel)
    (retriever : String → List SchemaDocument) (input : String) :
    ((build_list_table_tool db).func input).isText = true ∧
    ((build_info_table_tool db).func input).isText = true ∧
    ((build_sql_generation_tool gen db 3).func input).isText = true ∧
    (build_schema_tool retriever).func input = .docs (retriever input) ∧
    serializeToolOutput ((build_schema_tool retriever).func input) =
      String.intercalate "\n" ((retriever input).map (fun d => d.page_content)) :=
  ⟨rfl, rfl, rfl, rfl, rfl⟩

/-! ## Lemmas about the agent loop -/

/-- With parse-error handling on, the loop always reaches an ok result. -/
theorem agentLoop_isOk_of_handle (plan : List ScratchpadEntry → PlannerStep)
    (tools : List Tool) :
    ∀ (fuel : Nat) (pad : List ScratchpadEntry),
      (agentLoop plan tools true fuel pad).isOk = true := by
  intro fuel
  induction fuel with
  | zero => intro pad; rfl
  | succ f2 ih =>
    intro pad
    cases hplan : plan pad with
    | finalAnswer a => simp [agentLoop, hplan, Except.isOk, Except.toBool]
    | toolCall name input =>
      cases hfind : tools.find? (fun t => t.name == name) with
      | some t => simp only [agentLoop, hplan, hfind]; exact ih _
      | none => simp only [agentLoop, hplan, hfind]; exact ih _
    | parseFailure raw =>
      simp only [agentLoop, hplan, if_true]
      exact ih _

/-- The scratchpad grows by at most one entry per remaining iteration. -/
theorem agentLoop_pad_bound (plan : List ScratchpadEntry → PlannerStep)
    (tools : List Tool) (handleParsingErrors : Bool) :
    ∀ (fuel : Nat) (pad : List ScratchpadEntry) (answer : String)
      (finalPad : List ScratchpadEntry),
      agentLoop plan tools handleParsingErrors fuel pad = .ok (answer, finalPad) →
      finalPad.length ≤ pad.length + fuel := by
  intro fuel
  induction fuel with
  | zero =>
    intro pad answer finalPad h
    simp only [agentLoop, Except.ok.injEq, Prod.mk.injEq] at h
    rw [← h.2]
    omega
  | succ f2 ih =>
    intro pad answer finalPad h
    cases hplan : plan pad with
    | finalAnswer a =>
      simp only [agentLoop, hplan, Except.ok.injEq, Prod.mk.injEq] at h
      rw [← h.2]
      omega
    | toolCall name input =>
      cases hfind : tools.find? (fun t => t.name == name) with
      | some t =>
        simp only [agentLoop, hplan, hfind] at h
        have := ih _ _ _ h
        simp only [List.length_append, List.length_cons, List.length_nil] at this
        omega
      | none =>
        simp only [agentLoop, hplan, hfind] at h
        have := ih _ _ _ h
        simp only [List.length_append, List.length_cons, List.length_nil] at this
        omega
    | parseFailure raw =>
      cases handleParsingErrors with
      | true =>
        simp only [agentLoop, hplan, if_true] at h
        have := ih _ _ _ h
        simp only [List.length_append, List.length_cons, List.length_nil] at this
        omega
      | false =>
        simp only [agentLoop, hplan, if_false, reduceIte] at h
        cases h

/-- C7: with the executor configuration fixed by build_agent
(handle_parsing_errors on), a planner output that cannot be parsed is
caught and fed back as a corrective observation appended to the
scratchpad, the loop never aborts the run with an error, and every run
stays within the iteration budget (at most one scratchpad entry per
budgeted iteration).  Modelled from the spec, because the executor's
parse-error handling lives in the langchain library, not in this
repository. -/
theorem agent_executor_recovers_from_parse_failures :
    (∀ (gen : Nat → ChainInput → String) (db : SQLDatabaseModel)
        (retriever : String → List SchemaDocument)
        (plan : List ScratchpadEntry → PlannerStep) (fuel : Nat)
        (pad : List ScratchpadEntry),
      (agentLoop plan (build_agent gen db retriever).tools
        (build_agent gen db retriever).handleParsingErrors fuel pad).isOk = true) ∧
    (∀ (tools : List Tool) (plan : List ScratchpadEntry → PlannerStep)
        (fuel : Nat) (pad : List ScratchpadEntry) (raw : String),
      plan pad = .parseFailure raw →
      agentLoop plan tools true (fuel + 1) pad =
        agentLoop plan tools true fuel
          (pad ++ [⟨"_Exception", raw, parseFailureObservation⟩])) ∧
    (∀ (tools : List Tool) (plan : List ScratchpadEntry → PlannerStep)
        (handleParsingErrors : Bool) (fuel : Nat) (pad : List ScratchpadEntry)
        (answer : String) (finalPad : List ScratchpadEntry),
      agentLoop plan tools handleParsingErrors fuel pad = .ok (answer, finalPad) →
      finalPad.length ≤ pad.length + fuel) := by
  refine ⟨?_, ?_, ?_⟩
  · intro gen db retriever plan fuel pad
    exact agentLoop_isOk_of_handle plan (build_agent gen db retriever).tools fuel pad
  · intro tools plan fuel pad raw h
    simp only [agentLoop, h, if_true]
  · intro tools plan handleParsingErrors fuel pad answer finalPad h
    exact agentLoop_pad_bound plan tools handleParsingErrors fuel pad answer finalPad h

/-- Witness for C7 at a concrete always-unparsable planner: the parse
failure becomes a scratchpad observation and the bound holds on the
resulting run. -/
theorem agent_executor_recovers_witness :
    agentLoop (fun _ => .parseFailure "gibberish") [] true 1 [] =
      agentLoop (fun _ => .parseFailure "gibberish") [] true 0
        [⟨"_Exception", "gibberish", parseFailureObservation⟩] ∧
    ([(⟨"_Exception", "gibberish", parseFailureObservation⟩ : ScratchpadEntry)]).length ≤
      ([] : List ScratchpadEntry).length + 1 :=
  ⟨agent_executor_recovers_from_parse_failures.2.1 [] (fun _ => .parseFailure "gibberish")
      0 [] "gibberish" rfl,
   agent_executor_recovers_from_parse_failures.2.2 [] (fun _ => .parseFailure "gibberish")
      true 1 [] "Agent stopped due to iteration limit."
      [⟨"_Exception", "gibberish", parseFailureObservation⟩] rfl⟩

/-- C9: every row of the schema DataFrame has exactly the column labels
table_name, column_name, definition, data_type in order; every table
contributes exactly one table-level row (sentinel column name, data_type
TABLE) placed immediately before that table's column rows, the rows of a
table forming one contiguous block starting at the table-level row; and
the Chinese column-name component of the definition tuples is dropped — it
is the value of no cell of any row. -/
theorem create_schema_shape :
    (∀ row ∈ create_schema,
      row.map Prod.fst = ["table_name", "column_name", "definition", "data_type"]) ∧
    (∀ td ∈ column_definitions,
      ∃ i ∈ List.range create_schema.length,
        rowVal (create_schema.getD i []) "table_name" = td.1 ∧
        rowVal (create_schema.getD i []) "column_name" = "__table__" ∧
        rowVal (create_schema.getD i []) "data_type" = "TABLE" ∧
        (∀ j ∈ List.range create_schema.length,
          (rowVal (create_schema.getD j []) "table_name" = td.1 ↔
            (i ≤ j ∧ j ≤ i + td.2.length))) ∧
        (∀ j ∈ List.range create_schema.length,
          i < j → j ≤ i + td.2.length →
            rowVal (create_schema.getD j []) "column_name" ≠ "__table__")) ∧
    (∀ row ∈ create_schema, ∀ p ∈ row, p.2 ∉ zhColumnNames) := by
  refine ⟨by decide, by decide, by decide⟩

/-- Witness for C9 at the first row of the DataFrame: the table-level
members row carries exactly the four column labels. -/
theorem create_schema_shape_witness :
    ([("table_name", "members"), ("column_name", "__table__"),
      ("definition", "Table that stores information about registered members."),
      ("data_type", "TABLE")].map Prod.fst) =
      ["table_name", "column_name", "definition", "data_type"] :=
  create_schema_shape.1
    [("table_name", "members"), ("column_name", "__table__"),
     ("definition", "Table that stores information about registered members."),
     ("data_type", "TABLE")] (by decide)

/-! ## Lemmas about the retriever document construction -/

/-- contains agrees with membership for strings. -/
theorem contains_iff_mem_str (l : List String) (a : String) :
    l.contains a = true ↔ a ∈ l :=
  List.elem_iff

/-- Membership through the insertion step of the key sort. -/
theorem mem_insertSorted (t : String) (l : List String) (x : String) :
    x ∈ insertSorted t l ↔ x = t ∨ x ∈ l := by
  induction l with
  | nil => simp [insertSorted]
  | cons u rest ih =>
    rw [insertSorted]
    by_cases h : strLt t.data u.data = true
    · rw [if_pos h]
      simp [List.mem_cons]
    · rw [if_neg h]
      simp only [List.mem_cons, ih]
      tauto

/-- Membership through the key sort. -/
theorem mem_sortStrings (l : List String) (x : String) :
    x ∈ sortStrings l ↔ x ∈ l := by
  induction l with
  | nil => simp [sortStrings]
  | cons c rest ih =>
    rw [sortStrings, List.foldr_cons, mem_insertSorted,
      show List.foldr insertSorted [] rest = sortStrings rest from rfl]
    simp [List.mem_cons, ih]

/-- Membership through first-occurrence deduplication. -/
theorem mem_dedupFirstAux :
    ∀ (l seen : List String) (x : String),
      x ∈ dedupFirstAux l seen ↔ x ∈ l ∧ x ∉ seen := by
  intro l
  induction l with
  | nil => intro seen x; simp [dedupFirstAux]
  | cons y rest ih =>
    intro seen x
    rw [dedupFirstAux]
    by_cases hy : seen.contains y = true
    · rw [if_pos hy, ih]
      have hymem : y ∈ seen := (contains_iff_mem_str seen y).mp hy
      constructor
      · rintro ⟨h1, h2⟩
        exact ⟨List.mem_cons_of_mem y h1, h2⟩
      · rintro ⟨h1, h2⟩
        rcases List.mem_cons.mp h1 with rfl | h3
        · exact absurd hymem h2
        · exact ⟨h3, h2⟩
    · rw [if_neg hy]
      have hymem : y ∉ seen := fun hm => hy ((contains_iff_mem_str seen y).mpr hm)
      constructor
      · intro hx
        rcases List.mem_cons.mp hx with rfl | hx2
        · exact ⟨List.mem_cons_self _ _, hymem⟩
        · rw [ih] at hx2
          exact ⟨List.mem_cons_of_mem y hx2.1,
            fun hs => hx2.2 (List.mem_cons_of_mem y hs)⟩
      · rintro ⟨h1, h2⟩
        by_cases hxy : x = y
        · subst hxy
          exact List.mem_cons_self _ _
        · rcases List.mem_cons.mp h1 with rfl | h3
          · exact absurd rfl hxy
          · apply List.mem_cons_of_mem
            rw [ih]
            refine ⟨h3, fun hs => ?_⟩
            rcases List.mem_cons.mp hs with rfl | h4
            · exact hxy rfl
            · exact h2 h4

/-- On a nonempty group whose rows all share the same ordered key list,
the column-label fold returns exactly that key list. -/
theorem dfColumns_uniform (K : List String) :
    ∀ (g : List (List (String × String))), g ≠ [] →
      (∀ r ∈ g, r.map Prod.fst = K) → dfColumns g = K := by
  have hkeep : ∀ (rs : List (List (String × String))),
      (∀ r ∈ rs, r.map Prod.fst = K) →
      List.foldl (fun acc row =>
        acc ++ ((row.map Prod.fst).filter (fun k => !(acc.contains k)))) K rs = K := by
    intro rs
    induction rs with
    | nil => intro _; rfl
    | cons r rest ih =>
      intro hall
      rw [List.foldl_cons]
      have hstep : K ++ ((r.map Prod.fst).filter (fun k => !(K.contains k))) = K := by
        rw [hall r (List.mem_cons_self _ _)]
        have hfilter : K.filter (fun k => !(K.contains k)) = [] := by
          rw [List.filter_eq_nil_iff]
          intro a ha
          simp [contains_iff_mem_str K a, ha]
        rw [hfilter, List.append_nil]
      rw [hstep]
      exact ih (fun r2 h2 => hall r2 (List.mem_cons_of_mem r h2))
  intro g hne hall
  cases g with
  | nil => exact absurd rfl hne
  | cons r rest =>
    rw [dfColumns, List.foldl_cons]
    have hstep : ([] : List String) ++
        ((r.map Prod.fst).filter (fun k => !(([] : List String).contains k))) = K := by
      rw [List.nil_append, hall r (List.mem_cons_self _ _)]
      apply List.filter_eq_self.mpr
      intro a _
      rfl
    rw [hstep]
    exact hkeep rest (fun r2 h2 => hall r2 (List.mem_cons_of_mem r h2))

/-- C10: for every DataFrame whose rows share one ordered key list, each
per-table document built by init_retriever has page content equal to the
table name followed by the comma-joined DataFrame column labels — not the
table's own schema columns — so on the schema DataFrame the text after
the colon is the same for every table and mentions no actual column name
such as member_id. -/
theorem init_retriever_table_doc_content :
    (∀ (df : List (List (String × String))) (K : List String),
      (∀ r ∈ df, r.map Prod.fst = K) →
      ∀ d ∈ init_retriever_table_docs df,
        d.page_content = d.metaTableName ++ ": " ++ String.intercalate ", " K) ∧
    (∀ d ∈ init_retriever_table_docs create_schema,
      d.page_content =
        d.metaTableName ++ ": " ++ "table_name, column_name, definition, data_type") ∧
    (∀ d ∈ init_retriever_table_docs create_schema,
      ¬ "member_id".data <:+: d.page_content.data) := by
  refine ⟨?_, by decide, by decide⟩
  intro df K hK d hd
  simp only [init_retriever_table_docs, List.mem_map] at hd
  obtain ⟨⟨t, g⟩, hg, heqd⟩ := hd
  simp only [groupByTable, List.mem_map] at hg
  obtain ⟨t0, ht0mem, heq⟩ := hg
  have ht : t0 = t := congrArg Prod.fst heq
  have hgg : df.filter (fun r => rowVal r "table_name" == t0) = g := congrArg Prod.snd heq
  subst ht
  rw [mem_sortStrings, mem_dedupFirstAux] at ht0mem
  obtain ⟨hmap, _⟩ := ht0mem
  rw [List.mem_map] at hmap
  obtain ⟨r, hr, hrv⟩ := hmap
  have hrmem : r ∈ df.filter (fun r2 => rowVal r2 "table_name" == t0) :=
    List.mem_filter.mpr ⟨hr, by rw [beq_iff_eq]; exact hrv⟩
  have hne : g ≠ [] := by
    intro hnil
    rw [hgg, hnil] at hrmem
    exact List.not_mem_nil r hrmem
  have hcols : dfColumns g = K := by
    apply dfColumns_uniform K g hne
    intro r2 h2
    rw [← hgg] at h2
    exact hK r2 (List.mem_filter.mp h2).1
  rw [← heqd]
  simp only [hcols]

/-- Witness for C10 at a small DataFrame with uniform keys: the table doc
content joins the column labels, not the row values. -/
theorem init_retriever_table_doc_content_witness :
    (SchemaDocument.mk ("t1" ++ ": " ++ String.intercalate ", " ["table_name", "foo"])
        "t1").page_content =
      (SchemaDocument.mk ("t1" ++ ": " ++ String.intercalate ", " ["table_name", "foo"])
        "t1").metaTableName ++ ": " ++ String.intercalate ", " ["table_name", "foo"] :=
  init_retriever_table_doc_content.1
    [[("table_name", "t1"), ("foo", "1")], [("table_name", "t2"), ("foo", "2")]]
    ["table_name", "foo"] (by decide)
    (SchemaDocument.mk ("t1" ++ ": " ++ String.intercalate ", " ["table_name", "foo"]) "t1")
    (by decide)

end TextToSQL
